import Mathlib

/-!
Shallow embedding of `src/etl_connector.py` (OTX IOC IPv4 ETL connector)
and verification of its specification claims.

Python values decoded from JSON (and documents sent to the store) are
modelled by `PyVal`; Python `None` and JSON `null` are both `PyVal.none`,
matching `json.loads`.  Dictionaries are association lists with Python's
first-key-wins lookup.  Network and store interactions are modelled as
explicit per-attempt / per-address outcome environments supplied to the
embedded functions, which return their results together with the effect
trace (sleeps, writes, printed documents).
-/

namespace Etl

/-- A Python value as produced by `json.loads` / passed to the store. -/
inductive PyVal where
  | none
  | str (s : String)
  | int (n : Int)
  | bool (b : Bool)
  | dict (fields : List (String × PyVal))
  | list (items : List PyVal)

/-- Python `x is None`. -/
def PyVal.isNone : PyVal → Bool
  | .none => true
  | _ => false

/-- Python `isinstance(x, dict)`. -/
def PyVal.isDict : PyVal → Bool
  | .dict _ => true
  | _ => false

/-- A Python dict: association list, first binding of a key wins. -/
abbrev PyDict := List (String × PyVal)

/-- Python `d[k]` / `d.get(k)` when the key is present. -/
def lookupKey : PyDict → String → Option PyVal
  | [], _ => Option.none
  | (k', v) :: rest, k => if k' = k then some v else lookupKey rest k

/-- Python `k in d`. -/
def containsKey (d : PyDict) (k : String) : Bool :=
  (lookupKey d k).isSome

/-- Python `d.get(k)`: the value if present, otherwise `None`. -/
def pyGet (d : PyDict) (k : String) : PyVal :=
  (lookupKey d k).getD PyVal.none

/-! ## Input Collector: `iter_ips_from_args` (lines 54–71)

The optional `--ips` argument is an `Option String` (`none` models both a
missing argument and Python-falsy `None`); the optional `--ips-file` is
modelled by its contents as a list of lines (`none` when no file is given).
Python truthiness: an empty inline string is falsy and skipped, which gives
the same tokens as splitting it, so the model splits whenever the argument
is present. -/

/-- Tokens contributed by the `--ips` comma-separated argument:
split on `,`, strip, drop empties (lines 56–57). -/
def inlineTokens : Option String → List String
  | Option.none => []
  | some s => ((s.splitOn ",").map String.trim).filter (fun x => x ≠ "")

/-- Tokens contributed by the `--ips-file` file: strip each line, drop
blank lines and `#`-comments (lines 58–63). -/
def fileTokens : Option (List String) → List String
  | Option.none => []
  | some lines =>
      ((lines.map String.trim).filter (fun s => s ≠ "" && !(s.startsWith "#")))

/-- The de-duplication loop of lines 64–71: keep an element only if it is
not in `seen`, accumulating `seen` as we go. -/
def dedupSeen (seen : List String) : List String → List String
  | [] => []
  | ip :: rest =>
      if ip ∈ seen then dedupSeen seen rest
      else ip :: dedupSeen (ip :: seen) rest

/-- `iter_ips_from_args(ips_arg, ips_file)` (lines 54–71). -/
def iter_ips_from_args (ipsArg : Option String) (ipsFile : Option (List String)) :
    List String :=
  dedupSeen [] (inlineTokens ipsArg ++ fileTokens ipsFile)

/-- Modelled from the spec: remove every Address that already appeared
earlier in the combined order (the claim's description of de-duplication,
kept for the refinement proof). -/
def specDedup : List String → List String
  | [] => []
  | x :: xs => x :: (specDedup xs).filter (fun y => y ≠ x)

/-! ## Fetcher: `fetch_otx_general` (lines 74–94)

One attempt against the mocked endpoint has one of five outcomes.  A 2xx
status whose body parses is `ok`; HTTP 429 is `rateLimited`; any other
non-2xx status makes `raise_for_status` raise a `requests.RequestException`
(`httpError`); `requests.get` itself raising is `transportFail`; a 2xx body
that fails to parse is `badJson`.  The last three are caught by the same
`except (requests.RequestException, json.JSONDecodeError)` handler. -/

inductive AttemptOutcome where
  | ok (payload : PyDict)
  | rateLimited
  | httpError (e : String)
  | transportFail (e : String)
  | badJson (e : String)

/-- What `fetch_otx_general` does overall: return the decoded payload,
propagate an exception from an attempt, or fall through the loop into
`raise RuntimeError("Exhausted retries unexpectedly")` (line 94). -/
inductive FetchResult where
  | success (payload : PyDict)
  | raised (e : String)
  | internalError

/-- The retry loop of lines 76–92.  `attempt` is the current 1-based
attempt number; `remaining` counts the loop iterations still to run
including the current one, so the current attempt is the final one exactly
when `remaining = 1`.  Returns the result, the list of sleep durations in
order, and the number of attempts performed. -/
def fetchGo (backoff : Nat) (outs : Nat → AttemptOutcome) (attempt : Nat) :
    Nat → FetchResult × List Nat × Nat
  | 0 => (.internalError, [], 0)
  | remaining + 1 =>
    match outs attempt with
    | .ok p => (.success p, [], 1)
    | .rateLimited =>
        let r := fetchGo backoff outs (attempt + 1) remaining
        (r.1, backoff * attempt :: r.2.1, r.2.2 + 1)
    | .httpError e | .transportFail e | .badJson e =>
        if remaining = 0 then (.raised e, [], 1)
        else
          let r := fetchGo backoff outs (attempt + 1) remaining
          (r.1, backoff * attempt :: r.2.1, r.2.2 + 1)

/-- `fetch_otx_general(ip, headers, timeout, max_retries, backoff)`
(lines 74–94), with the endpoint's behaviour supplied as the per-attempt
outcome map `outs`. -/
def fetch_otx_general (maxRetries backoff : Nat) (outs : Nat → AttemptOutcome) :
    FetchResult × List Nat × Nat :=
  fetchGo backoff outs 1 maxRetries

/-! ## Transformer: `transform` (lines 97–109) -/

/-- `transform(ip, payload)` (lines 97–109); the wall-clock ISO timestamp
read at line 98 is passed in as `now`. -/
def transform (ip : String) (now : String) (payload : PyDict) : PyDict :=
  [ ("ip", .str ip),
    ("source", .str "AlienVault OTX"),
    ("endpoint", .str "IPv4/general"),
    ("fetched_at", .str now),
    ("raw", .dict payload),
    ("indicator", pyGet payload "indicator"),
    ("alexa_rank",
      match pyGet payload "alexa" with
      | .dict fs => pyGet fs "rank"
      | _ => .none),
    ("pulse_count",
      match pyGet payload "pulse_info" with
      | .dict fs => pyGet fs "count"
      | _ => .none) ]

/-! ## Persistence Layer: `upsert_document` (lines 126–136) -/

/-- A single write issued to the collection. -/
inductive WriteOp where
  | updateOne (filterKey : String) (filterVal : PyVal) (doc : PyDict)
  | insertOne (doc : PyDict)

/-- Python truthiness of `upsert_key : Optional[str]`: `None` and the
empty string are falsy. -/
def truthyKey : Option String → Bool
  | Option.none => false
  | some k => k ≠ ""

/-- The guard of line 131:
`upsert_key and upsert_key in doc and doc[upsert_key] is not None`. -/
def upsertGuard (upsertKey : Option String) (doc : PyDict) : Bool :=
  match upsertKey with
  | Option.none => false
  | some k => (k ≠ "" : Bool) && containsKey doc k && !(pyGet doc k).isNone

/-- `upsert_document(coll, doc, upsert_key)` (lines 126–136): the reported
outcome string and the write performed. -/
def upsert_document (doc : PyDict) (upsertKey : Option String) :
    String × WriteOp :=
  if upsertGuard upsertKey doc then
    ("upserted", .updateOne (upsertKey.getD "") (pyGet doc (upsertKey.getD "")) doc)
  else
    ("inserted", .insertOne doc)

/-! ## Orchestrator: `run` (lines 139–174) and `main` (lines 177–189)

The environment of one address: what its `fetch_otx_general` call does
(`.ok payload` for a returned decoded payload, `.error e` for a propagated
exception), the wall-clock timestamp read by `transform`, and whether the
store write raises.  The store connection attempt of line 154 is an
`Except String Unit` (`.error` models `get_mongo_collection` raising). -/

structure IpEnv where
  fetch : Except String PyDict
  now : String
  persistExc : Option String

/-- Observable result of one `run` call: the returned exit code plus the
effect trace. -/
structure RunResult where
  exitCode : Nat
  /-- whether `get_mongo_collection` (and its `ping`) was called -/
  mongoConnAttempted : Bool
  /-- documents printed by `print(json.dumps(doc, indent=2))` in dry-run -/
  printed : List PyDict
  /-- writes issued through `upsert_document` -/
  writes : List WriteOp
  /-- addresses whose loop body was entered, in order -/
  processed : List String
  /-- addresses whose exception was caught and logged at line 172 -/
  failures : List String

/-- The body of the `for ip in ips` loop (lines 162–173) for one address:
returns whether the address succeeded, the documents it printed, and the
writes it issued. -/
def processIp (dryRun : Bool) (upsertKey : Option String) (ip : String)
    (env : IpEnv) : Bool × List PyDict × List WriteOp :=
  match env.fetch with
  | .error _ => (false, [], [])
  | .ok payload =>
      let doc := transform ip env.now payload
      if dryRun then (true, [doc], [])
      else
        match env.persistExc with
        | some _ => (false, [], [])
        | Option.none => (true, [], [(upsert_document doc upsertKey).2])

/-- The loop of lines 161–174 over the whole address list, threading the
success counter. -/
def runLoop (dryRun : Bool) (upsertKey : Option String) (env : String → IpEnv) :
    List String → Nat × List PyDict × List WriteOp × List String × List String
  | [] => (0, [], [], [], [])
  | ip :: rest =>
      let r := processIp dryRun upsertKey ip (env ip)
      let t := runLoop dryRun upsertKey env rest
      ( (if r.1 then 1 else 0) + t.1,
        r.2.1 ++ t.2.1,
        r.2.2 ++ t.2.2.1,
        ip :: t.2.2.2.1,
        (if r.1 then [] else [ip]) ++ t.2.2.2.2 )

/-- `run(ips, dry_run, upsert_key)` (lines 139–174).  `mongo` models
whether `get_mongo_collection` succeeds or raises. -/
def run (ips : List String) (dryRun : Bool) (upsertKey : Option String)
    (mongo : Except String Unit) (env : String → IpEnv) : RunResult :=
  if !dryRun then
    match mongo with
    | .error _ =>
        { exitCode := 2, mongoConnAttempted := true, printed := [],
          writes := [], processed := [], failures := [] }
    | .ok _ =>
        let t := runLoop dryRun upsertKey env ips
        { exitCode := if t.1 = ips.length then 0 else 1,
          mongoConnAttempted := true, printed := t.2.1,
          writes := t.2.2.1, processed := t.2.2.2.1, failures := t.2.2.2.2 }
  else
    let t := runLoop dryRun upsertKey env ips
    { exitCode := if t.1 = ips.length then 0 else 1,
      mongoConnAttempted := false, printed := t.2.1,
      writes := t.2.2.1, processed := t.2.2.2.1, failures := t.2.2.2.2 }

/-- `main()` (lines 177–189): collect the addresses, return 1 if none,
otherwise call `run`.  The process exit status is `sys.exit(main())`
(line 193). -/
def main (ipsArg : Option String) (ipsFile : Option (List String))
    (dryRun : Bool) (upsertKey : String) (mongo : Except String Unit)
    (env : String → IpEnv) : Nat :=
  let ips := iter_ips_from_args ipsArg ipsFile
  if ips = [] then 1
  else (run ips dryRun (some upsertKey) mongo env).exitCode

/-! ## One-step unfolding lemmas for the retry loop -/

theorem fetchGo_succ_eq (backoff : Nat) (outs : Nat → AttemptOutcome)
    (attempt r : Nat) :
    fetchGo backoff outs attempt (r + 1) =
      match outs attempt with
      | .ok p => (.success p, [], 1)
      | .rateLimited =>
          ((fetchGo backoff outs (attempt + 1) r).1,
           backoff * attempt :: (fetchGo backoff outs (attempt + 1) r).2.1,
           (fetchGo backoff outs (attempt + 1) r).2.2 + 1)
      | .httpError e | .transportFail e | .badJson e =>
          if r = 0 then (.raised e, [], 1)
          else ((fetchGo backoff outs (attempt + 1) r).1,
                backoff * attempt :: (fetchGo backoff outs (attempt + 1) r).2.1,
                (fetchGo backoff outs (attempt + 1) r).2.2 + 1) := rfl

theorem fetchGo_ok_step (backoff : Nat) (outs : Nat → AttemptOutcome)
    (attempt r : Nat) (p : PyDict) (h : outs attempt = .ok p) :
    fetchGo backoff outs attempt (r + 1) = (.success p, [], 1) := by
  rw [fetchGo_succ_eq, h]

theorem fetchGo_rl_step (backoff : Nat) (outs : Nat → AttemptOutcome)
    (attempt r : Nat) (h : outs attempt = .rateLimited) :
    fetchGo backoff outs attempt (r + 1) =
      ((fetchGo backoff outs (attempt + 1) r).1,
       backoff * attempt :: (fetchGo backoff outs (attempt + 1) r).2.1,
       (fetchGo backoff outs (attempt + 1) r).2.2 + 1) := by
  rw [fetchGo_succ_eq, h]

theorem fetchGo_transport_step (backoff : Nat) (outs : Nat → AttemptOutcome)
    (attempt r : Nat) (e : String) (h : outs attempt = .transportFail e) :
    fetchGo backoff outs attempt (r + 1) =
      if r = 0 then (.raised e, [], 1)
      else ((fetchGo backoff outs (attempt + 1) r).1,
            backoff * attempt :: (fetchGo backoff outs (attempt + 1) r).2.1,
            (fetchGo backoff outs (attempt + 1) r).2.2 + 1) := by
  rw [fetchGo_succ_eq, h]

theorem fetchGo_http_step (backoff : Nat) (outs : Nat → AttemptOutcome)
    (attempt r : Nat) (e : String) (h : outs attempt = .httpError e) :
    fetchGo backoff outs attempt (r + 1) =
      if r = 0 then (.raised e, [], 1)
      else ((fetchGo backoff outs (attempt + 1) r).1,
            backoff * attempt :: (fetchGo backoff outs (attempt + 1) r).2.1,
            (fetchGo backoff outs (attempt + 1) r).2.2 + 1) := by
  rw [fetchGo_succ_eq, h]

theorem fetchGo_json_step (backoff : Nat) (outs : Nat → AttemptOutcome)
    (attempt r : Nat) (e : String) (h : outs attempt = .badJson e) :
    fetchGo backoff outs attempt (r + 1) =
      if r = 0 then (.raised e, [], 1)
      else ((fetchGo backoff outs (attempt + 1) r).1,
            backoff * attempt :: (fetchGo backoff outs (attempt + 1) r).2.1,
            (fetchGo backoff outs (attempt + 1) r).2.2 + 1) := by
  rw [fetchGo_succ_eq, h]

/-! ## Theorems -/

/-- C1: with `max_retries = 3`, a mocked endpoint answering 429 on attempts
1 and 2 and a 2xx response with valid JSON payload `p` on attempt 3 makes
`fetch_otx_general` return the attempt-3 decoded payload, after exactly two
backoff sleeps of `backoff * 1` and `backoff * 2` seconds (and three
attempts). -/
theorem fetcher_rate_limited_then_success (backoff : Nat) (p : PyDict)
    (outs : Nat → AttemptOutcome) (h1 : outs 1 = .rateLimited)
    (h2 : outs 2 = .rateLimited) (h3 : outs 3 = .ok p) :
    fetch_otx_general 3 backoff outs =
      (.success p, [backoff * 1, backoff * 2], 3) := by
  simp [fetch_otx_general, fetchGo, h1, h2, h3]

/-- Witness for `fetcher_rate_limited_then_success`: a concrete endpoint
that is rate-limited on attempts 1 and 2 and returns `{}` on attempt 3,
with backoff unit 2. -/
theorem fetcher_rate_limited_then_success_witness :
    fetch_otx_general 3 2
        (fun n => if n = 3 then AttemptOutcome.ok [] else AttemptOutcome.rateLimited) =
      (FetchResult.success [], [2, 4], 3) :=
  fetcher_rate_limited_then_success 2 []
    (fun n => if n = 3 then AttemptOutcome.ok [] else AttemptOutcome.rateLimited)
    rfl rfl rfl

/-- Helper for C3: if every attempt raises a transport failure, the retry
loop starting at attempt `attempt` with `remaining ≥ 1` iterations left
performs exactly `remaining` attempts, sleeps `backoff * a` after each
non-final attempt `a`, and propagates the final attempt's exception. -/
theorem fetchGo_all_fail (backoff : Nat) (e : Nat → String)
    (outs : Nat → AttemptOutcome) (hf : ∀ i, outs i = .transportFail (e i)) :
    ∀ remaining, 1 ≤ remaining → ∀ attempt,
      fetchGo backoff outs attempt remaining =
        (.raised (e (attempt + remaining - 1)),
         (List.range' attempt (remaining - 1)).map (fun a => backoff * a),
         remaining) := by
  intro remaining
  induction remaining with
  | zero => intro h; omega
  | succ r ih =>
    intro _ attempt
    cases r with
    | zero =>
      rw [fetchGo_transport_step backoff outs attempt 0 (e attempt) (hf attempt),
        if_pos rfl]
      simp
    | succ r' =>
      have h := ih (by omega) (attempt + 1)
      rw [fetchGo_transport_step backoff outs attempt (r' + 1) (e attempt)
          (hf attempt), if_neg (by omega), h]
      simp only [show attempt + 1 + (r' + 1) - 1 = attempt + (r' + 1 + 1) - 1
          from by omega,
        show r' + 1 - 1 = r' from rfl, show r' + 1 + 1 - 1 = r' + 1 from rfl,
        List.range'_succ, List.map_cons]

/-- C3: with `max_retries = N ≥ 1` and an endpoint that fails at transport
level on every attempt, `fetch_otx_general` performs exactly `N` attempts,
sleeps `backoff * a` after each non-final attempt `a = 1, …, N-1`, and
propagates the final attempt's failure. -/
theorem fetcher_all_transport_failures (N backoff : Nat) (e : Nat → String)
    (outs : Nat → AttemptOutcome) (hN : 1 ≤ N)
    (hf : ∀ i, outs i = .transportFail (e i)) :
    fetch_otx_general N backoff outs =
      (.raised (e N), (List.range' 1 (N - 1)).map (fun a => backoff * a), N) := by
  have h := fetchGo_all_fail backoff e outs hf N hN 1
  rw [show 1 + N - 1 = N from by omega] at h
  exact h

/-- Witness for `fetcher_all_transport_failures`: `max_retries = 2`,
backoff unit 3, every attempt failing with `"boom"`. -/
theorem fetcher_all_transport_failures_witness :
    fetch_otx_general 2 3 (fun _ => AttemptOutcome.transportFail "boom") =
      (FetchResult.raised "boom", [3], 2) := by
  have h := fetcher_all_transport_failures 2 3 (fun _ => "boom")
    (fun _ => AttemptOutcome.transportFail "boom") (by omega) (fun i => rfl)
  simpa using h

/-- C6: for every address and payload, the transformed Record has exactly
the eight keys `ip`, `source`, `endpoint`, `fetched_at`, `raw`,
`indicator`, `alexa_rank`, `pulse_count`; `indicator` is the payload's
`indicator` value (`None` if absent); `alexa_rank` is `alexa.rank` when
the payload's `alexa` value is a mapping and `None` otherwise; and
`pulse_count` is `pulse_info.count` when `pulse_info` is a mapping and
`None` otherwise.  `transform` is a total Lean function, so it never
raises on missing or absent fields. -/
theorem transform_convenience_fields (ip now : String) (payload : PyDict) :
    (transform ip now payload).map Prod.fst =
      ["ip", "source", "endpoint", "fetched_at", "raw",
       "indicator", "alexa_rank", "pulse_count"] ∧
    lookupKey (transform ip now payload) "indicator" =
      some (pyGet payload "indicator") ∧
    lookupKey (transform ip now payload) "raw" = some (.dict payload) ∧
    (∀ fs, pyGet payload "alexa" = PyVal.dict fs →
      lookupKey (transform ip now payload) "alexa_rank" = some (pyGet fs "rank")) ∧
    ((pyGet payload "alexa").isDict = false →
      lookupKey (transform ip now payload) "alexa_rank" = some PyVal.none) ∧
    (∀ fs, pyGet payload "pulse_info" = PyVal.dict fs →
      lookupKey (transform ip now payload) "pulse_count" = some (pyGet fs "count")) ∧
    ((pyGet payload "pulse_info").isDict = false →
      lookupKey (transform ip now payload) "pulse_count" = some PyVal.none) := by
  refine ⟨by simp [transform], by simp [transform, lookupKey],
    by simp [transform, lookupKey], ?_, ?_, ?_, ?_⟩
  · intro fs h; simp [transform, lookupKey, h]
  · intro h
    cases hA : pyGet payload "alexa" <;>
      simp_all [transform, lookupKey, PyVal.isDict]
  · intro fs h; simp [transform, lookupKey, h]
  · intro h
    cases hA : pyGet payload "pulse_info" <;>
      simp_all [transform, lookupKey, PyVal.isDict]

/-- C2 counterexample: the empty string is a providable upsert key name,
and for the document `{"": "x"}` the key `""` is present with a non-null
value, yet `upsert_document` reports `"inserted"` (Python's truthiness
test `if upsert_key and …` treats the empty string as absent). -/
theorem upsert_empty_key_cex :
    some "" ≠ (Option.none : Option String) ∧
    containsKey [("", PyVal.str "x")] "" = true ∧
    (pyGet [("", PyVal.str "x")] "").isNone = false ∧
    (upsert_document [("", PyVal.str "x")] (some "")).1 = "inserted" := by
  refine ⟨by simp, rfl, rfl, rfl⟩

/-- C2 (amended): `upsert_document` reports `"upserted"` — and then its
write is a conditional update-with-upsert matching `{key: value}` — if and
only if the key name is provided, **non-empty**, present as a field of the
document, and that field's value is non-null; in every other case it
performs an unconditional insert and reports `"inserted"`. -/
theorem upsert_outcome_iff (doc : PyDict) (uk : Option String) :
    (((upsert_document doc uk).1 = "upserted" ∧
        ∃ k, uk = some k ∧
          (upsert_document doc uk).2 = WriteOp.updateOne k (pyGet doc k) doc) ↔
      ∃ k, uk = some k ∧ k ≠ "" ∧ containsKey doc k = true ∧
        (pyGet doc k).isNone = false) ∧
    ((¬ ∃ k, uk = some k ∧ k ≠ "" ∧ containsKey doc k = true ∧
        (pyGet doc k).isNone = false) →
      (upsert_document doc uk).1 = "inserted" ∧
      (upsert_document doc uk).2 = WriteOp.insertOne doc) := by
  cases uk with
  | none => simp [upsert_document, upsertGuard]
  | some k =>
    by_cases hk : k = ""
    · subst hk; simp [upsert_document, upsertGuard]
    · by_cases hc : containsKey doc k = true
      · by_cases hn : (pyGet doc k).isNone = false
        · simp [upsert_document, upsertGuard, hk, hc, hn]
        · simp only [Bool.not_eq_false] at hn
          simp [upsert_document, upsertGuard, hk, hc, hn]
      · simp only [Bool.not_eq_true] at hc
        simp [upsert_document, upsertGuard, hk, hc]

/-- Helper for C4: the retry loop starting at `attempt` with
`remaining ≥ 1` iterations left ends in the fall-through `internalError`
exactly when the final attempt it runs sees HTTP 429 and no earlier
attempt it runs returns a decoded payload. -/
theorem fetchGo_internalError_iff (backoff : Nat) (outs : Nat → AttemptOutcome) :
    ∀ remaining, 1 ≤ remaining → ∀ attempt,
      ((fetchGo backoff outs attempt remaining).1 = .internalError ↔
        (outs (attempt + remaining - 1) = .rateLimited ∧
          ∀ i, attempt ≤ i → i < attempt + remaining - 1 → ∀ p, outs i ≠ .ok p)) := by
  intro remaining
  induction remaining with
  | zero => intro h; omega
  | succ r ih =>
    intro _ attempt
    have hidx : attempt + (r + 1) - 1 = attempt + r := by omega
    cases r with
    | zero =>
      cases houts : outs attempt with
      | ok p =>
        rw [fetchGo_ok_step backoff outs attempt 0 p houts]
        simp [hidx, houts]
      | rateLimited =>
        rw [fetchGo_rl_step backoff outs attempt 0 houts]
        simp only [hidx, houts, Nat.add_zero]
        constructor
        · intro _
          exact ⟨trivial, fun i h1 h2 => absurd (lt_of_le_of_lt h1 h2) (lt_irrefl _)⟩
        · intro _; rfl
      | httpError e =>
        rw [fetchGo_http_step backoff outs attempt 0 e houts, if_pos rfl]
        simp [hidx, houts]
      | transportFail e =>
        rw [fetchGo_transport_step backoff outs attempt 0 e houts, if_pos rfl]
        simp [hidx, houts]
      | badJson e =>
        rw [fetchGo_json_step backoff outs attempt 0 e houts, if_pos rfl]
        simp [hidx, houts]
    | succ r' =>
      have ihh := ih (by omega) (attempt + 1)
      have hidx2 : attempt + 1 + (r' + 1) - 1 = attempt + (r' + 1) := by omega
      rw [hidx2] at ihh
      rw [hidx]
      cases houts : outs attempt with
      | ok p =>
        rw [fetchGo_ok_step backoff outs attempt (r' + 1) p houts]
        constructor
        · intro hc; exact absurd hc (by simp)
        · rintro ⟨-, hno⟩
          exact absurd houts (hno attempt le_rfl (by omega) p)
      | rateLimited =>
        rw [fetchGo_rl_step backoff outs attempt (r' + 1) houts]
        dsimp only
        rw [ihh]
        constructor
        · rintro ⟨h1, h2⟩
          refine ⟨h1, ?_⟩
          intro i hi1 hi2 p hip
          rcases Nat.eq_or_lt_of_le hi1 with heq | hlt
          · rw [← heq, houts] at hip; cases hip
          · exact h2 i (by omega) (by omega) p hip
        · rintro ⟨h1, h2⟩
          exact ⟨h1, fun i hi1 hi2 p hip => h2 i (by omega) (by omega) p hip⟩
      | httpError e =>
        rw [fetchGo_http_step backoff outs attempt (r' + 1) e houts,
          if_neg (by omega)]
        dsimp only
        rw [ihh]
        constructor
        · rintro ⟨h1, h2⟩
          refine ⟨h1, ?_⟩
          intro i hi1 hi2 p hip
          rcases Nat.eq_or_lt_of_le hi1 with heq | hlt
          · rw [← heq, houts] at hip; cases hip
          · exact h2 i (by omega) (by omega) p hip
        · rintro ⟨h1, h2⟩
          exact ⟨h1, fun i hi1 hi2 p hip => h2 i (by omega) (by omega) p hip⟩
      | transportFail e =>
        rw [fetchGo_transport_step backoff outs attempt (r' + 1) e houts,
          if_neg (by omega)]
        dsimp only
        rw [ihh]
        constructor
        · rintro ⟨h1, h2⟩
          refine ⟨h1, ?_⟩
          intro i hi1 hi2 p hip
          rcases Nat.eq_or_lt_of_le hi1 with heq | hlt
          · rw [← heq, houts] at hip; cases hip
          · exact h2 i (by omega) (by omega) p hip
        · rintro ⟨h1, h2⟩
          exact ⟨h1, fun i hi1 hi2 p hip => h2 i (by omega) (by omega) p hip⟩
      | badJson e =>
        rw [fetchGo_json_step backoff outs attempt (r' + 1) e houts,
          if_neg (by omega)]
        dsimp only
        rw [ihh]
        constructor
        · rintro ⟨h1, h2⟩
          refine ⟨h1, ?_⟩
          intro i hi1 hi2 p hip
          rcases Nat.eq_or_lt_of_le hi1 with heq | hlt
          · rw [← heq, houts] at hip; cases hip
          · exact h2 i (by omega) (by omega) p hip
        · rintro ⟨h1, h2⟩
          exact ⟨h1, fun i hi1 hi2 p hip => h2 i (by omega) (by omega) p hip⟩

/-- C4 (amended): for `max_retries ≥ 1`, the Fetcher returns a decoded
payload or propagates a request/decoding failure from some attempt,
**except** that the fall-through `RuntimeError` branch after the retry
loop is reached exactly when attempt `max_retries` results in HTTP 429
and no earlier attempt returned a 2xx response with valid JSON (a final
rate-limited attempt sleeps and exits the loop instead of raising). -/
theorem fetch_fallthrough_iff (maxRetries backoff : Nat)
    (outs : Nat → AttemptOutcome) (hN : 1 ≤ maxRetries) :
    ((fetch_otx_general maxRetries backoff outs).1 = FetchResult.internalError ↔
      (outs maxRetries = .rateLimited ∧
        ∀ i, 1 ≤ i → i < maxRetries → ∀ p, outs i ≠ .ok p)) ∧
    ((∃ p, (fetch_otx_general maxRetries backoff outs).1 = FetchResult.success p) ∨
      (∃ e, (fetch_otx_general maxRetries backoff outs).1 = FetchResult.raised e) ∨
      (fetch_otx_general maxRetries backoff outs).1 = FetchResult.internalError) := by
  constructor
  · have h := fetchGo_internalError_iff backoff outs maxRetries hN 1
    rw [show 1 + maxRetries - 1 = maxRetries from by omega] at h
    exact h
  · cases hres : (fetch_otx_general maxRetries backoff outs).1 with
    | success p => exact Or.inl ⟨p, rfl⟩
    | raised e => exact Or.inr (Or.inl ⟨e, rfl⟩)
    | internalError => exact Or.inr (Or.inr rfl)

/-- C4 counterexample: with `max_retries = 1` and an endpoint that is
rate-limited on every attempt, the retry loop falls through and
`fetch_otx_general` hits the `raise RuntimeError("Exhausted retries
unexpectedly")` branch — it neither returns a payload nor propagates a
request failure, refuting the claim that the branch is unreachable. -/
theorem fetch_fallthrough_reached_cex :
    (fetch_otx_general 1 0 (fun _ => AttemptOutcome.rateLimited)).1 =
      FetchResult.internalError := rfl

/-! ## Orchestrator helper lemmas -/

/-- `(transform ip now payload)` always carries exactly the eight Record
keys, in order. -/
theorem transform_keys (ip now : String) (payload : PyDict) :
    (transform ip now payload).map Prod.fst =
      ["ip", "source", "endpoint", "fetched_at", "raw",
       "indicator", "alexa_rank", "pulse_count"] := by
  simp [transform]

/-- When the store connection succeeds (or dry-run skips it), `run` is the
per-address loop: exit code from the success count, connection attempted
exactly when not in dry-run, and the loop's effect traces. -/
theorem run_ok_eq (ips : List String) (dryRun : Bool) (uk : Option String)
    (mongo : Except String Unit) (env : String → IpEnv)
    (h : mongo = Except.ok () ∨ dryRun = true) :
    run ips dryRun uk mongo env =
      { exitCode := if (runLoop dryRun uk env ips).1 = ips.length then 0 else 1,
        mongoConnAttempted := !dryRun,
        printed := (runLoop dryRun uk env ips).2.1,
        writes := (runLoop dryRun uk env ips).2.2.1,
        processed := (runLoop dryRun uk env ips).2.2.2.1,
        failures := (runLoop dryRun uk env ips).2.2.2.2 } := by
  cases dryRun with
  | false =>
    rcases h with rfl | h2
    · simp [run]
    · exact absurd h2 (by simp)
  | true => simp [run]

/-- The loop's success counter counts the successful addresses, its
`processed` trace is the whole list in order, and its `failures` trace is
exactly the addresses whose own environment makes them fail. -/
theorem runLoop_parts (dryRun : Bool) (uk : Option String)
    (env : String → IpEnv) (ips : List String) :
    (runLoop dryRun uk env ips).1 =
      (ips.filter (fun ip => (processIp dryRun uk ip (env ip)).1)).length ∧
    (runLoop dryRun uk env ips).2.2.2.1 = ips ∧
    (runLoop dryRun uk env ips).2.2.2.2 =
      ips.filter (fun ip => !(processIp dryRun uk ip (env ip)).1) := by
  induction ips with
  | nil => exact ⟨rfl, rfl, rfl⟩
  | cons ip rest ih =>
    obtain ⟨h1, h2, h3⟩ := ih
    by_cases hs : (processIp dryRun uk ip (env ip)).1 = true
    · simp [runLoop, hs, h1, h2, h3, List.filter_cons, Nat.add_comm]
    · simp only [Bool.not_eq_true] at hs
      simp [runLoop, hs, h1, h2, h3, List.filter_cons]

/-- In dry-run the loop prints the transformed Record of every address
whose fetch returns a payload, in order, and issues no write. -/
theorem runLoop_dry_parts (uk : Option String) (env : String → IpEnv)
    (ips : List String) :
    (runLoop true uk env ips).2.1 =
      ips.filterMap (fun ip =>
        match (env ip).fetch with
        | .ok p => some (transform ip (env ip).now p)
        | .error _ => Option.none) ∧
    (runLoop true uk env ips).2.2.1 = [] := by
  induction ips with
  | nil => exact ⟨rfl, rfl⟩
  | cons ip rest ih =>
    obtain ⟨h1, h2⟩ := ih
    cases hf : (env ip).fetch with
    | ok p => simp [runLoop, processIp, hf, h1, h2]
    | error e => simp [runLoop, processIp, hf, h1, h2]

/-- The spec-level de-duplication never repeats an Address. -/
theorem specDedup_nodup : ∀ l : List String, (specDedup l).Nodup
  | [] => List.nodup_nil
  | x :: xs => by
    rw [specDedup]
    refine List.nodup_cons.mpr ⟨?_, (specDedup_nodup xs).filter _⟩
    intro hx
    have := (List.mem_filter.mp hx).2
    simp at this

/-- The spec-level de-duplication keeps a subsequence of its input, so it
preserves first-appearance order. -/
theorem specDedup_sublist : ∀ l : List String, List.Sublist (specDedup l) l
  | [] => List.Sublist.refl []
  | x :: xs => by
    rw [specDedup]
    exact ((List.filter_sublist _).trans (specDedup_sublist xs)).cons₂ x

/-- The source's seen-set loop equals the spec-level de-duplication with
the already-seen elements filtered out. -/
theorem dedupSeen_eq_filter (l : List String) : ∀ seen : List String,
    dedupSeen seen l = (specDedup l).filter (fun y => y ∉ seen) := by
  induction l with
  | nil => intro seen; rfl
  | cons x xs ih =>
    intro seen
    by_cases hx : x ∈ seen
    · rw [dedupSeen, if_pos hx, ih seen, specDedup, List.filter_cons,
        if_neg (by simp [hx]), List.filter_filter]
      apply List.filter_congr
      intro y hy
      by_cases hys : y ∈ seen <;> by_cases hyx : y = x <;> simp_all
    · rw [dedupSeen, if_neg hx, ih (x :: seen), specDedup, List.filter_cons,
        if_pos (by simp [hx]), List.filter_filter]
      congr 1
      apply List.filter_congr
      intro y hy
      by_cases hys : y ∈ seen <;> by_cases hyx : y = x <;>
        simp_all [List.mem_cons]

/-! ## Remaining claim theorems -/

/-- C7: `iter_ips_from_args` returns the inline tokens (split on `,`,
trimmed, empties discarded) followed by the file lines (trimmed, blank and
`#`-comment lines discarded), with every Address that already appeared
earlier in the combined order removed — so the output has no duplicates
and is a first-appearance-order subsequence of inline-then-file. -/
theorem collector_dedup_order (a : Option String) (f : Option (List String)) :
    iter_ips_from_args a f = specDedup (inlineTokens a ++ fileTokens f) ∧
    (iter_ips_from_args a f).Nodup ∧
    List.Sublist (iter_ips_from_args a f) (inlineTokens a ++ fileTokens f) := by
  have h1 : iter_ips_from_args a f = specDedup (inlineTokens a ++ fileTokens f) := by
    rw [iter_ips_from_args, dedupSeen_eq_filter]
    simp
  refine ⟨h1, ?_, ?_⟩
  · rw [h1]; exact specDedup_nodup _
  · rw [h1]; exact specDedup_sublist _

/-- C5: with the store reachable (or in dry-run), `run` exits 0 when every
address succeeds and 1 when at least one fails; the process exits 1 from
`main` when no addresses are collected; `run` exits 2 when the store
connection raises outside dry-run; and in dry-run the connectivity check
is never attempted and exit 2 is impossible. -/
theorem exit_status_policy (ips : List String) (dryRun : Bool)
    (uk : Option String) (mongo : Except String Unit) (env : String → IpEnv)
    (ipsArg : Option String) (ipsFile : Option (List String)) (ukStr : String) :
    ((mongo = Except.ok () ∨ dryRun = true) →
      (∀ ip ∈ ips, (processIp dryRun uk ip (env ip)).1 = true) →
      (run ips dryRun uk mongo env).exitCode = 0) ∧
    ((mongo = Except.ok () ∨ dryRun = true) →
      (∃ ip ∈ ips, (processIp dryRun uk ip (env ip)).1 = false) →
      (run ips dryRun uk mongo env).exitCode = 1) ∧
    (iter_ips_from_args ipsArg ipsFile = [] →
      main ipsArg ipsFile dryRun ukStr mongo env = 1) ∧
    (dryRun = false → ∀ e, mongo = Except.error e →
      (run ips dryRun uk mongo env).exitCode = 2) ∧
    ((run ips true uk mongo env).mongoConnAttempted = false ∧
      (run ips true uk mongo env).exitCode ≠ 2) := by
  refine ⟨?_, ?_, ?_, ?_, ?_, ?_⟩
  · intro h hall
    rw [run_ok_eq ips dryRun uk mongo env h]
    obtain ⟨h1, -, -⟩ := runLoop_parts dryRun uk env ips
    dsimp only
    rw [h1, if_pos (List.filter_length_eq_length.mpr hall)]
  · intro h hex
    rw [run_ok_eq ips dryRun uk mongo env h]
    obtain ⟨h1, -, -⟩ := runLoop_parts dryRun uk env ips
    dsimp only
    obtain ⟨ip, hmem, hfail⟩ := hex
    have hlt : (ips.filter (fun ip => (processIp dryRun uk ip (env ip)).1)).length
        < ips.length :=
      List.length_filter_lt_length_iff_exists.mpr ⟨ip, hmem, by simp [hfail]⟩
    rw [h1, if_neg (Nat.ne_of_lt hlt)]
  · intro hemp
    simp [main, hemp]
  · rintro rfl e rfl
    simp [run]
  · rw [run_ok_eq ips true uk mongo env (Or.inr rfl)]
    rfl
  · rw [run_ok_eq ips true uk mongo env (Or.inr rfl)]
    dsimp only
    split <;> simp

/-- C8: with the store reachable (or in dry-run), the per-address loop
enters every address of the list in order — a fetch, transform or persist
failure of one address is caught, recorded as that address's failure only,
and never stops the remaining addresses — and the batch ends with exit
code 0 or 1, never an abort; only the startup store-connectivity failure
aborts the batch, before any address is processed. -/
theorem per_address_failure_isolation (ips : List String) (dryRun : Bool)
    (uk : Option String) (mongo : Except String Unit) (env : String → IpEnv)
    (h : mongo = Except.ok () ∨ dryRun = true) :
    (run ips dryRun uk mongo env).processed = ips ∧
    (run ips dryRun uk mongo env).failures =
      ips.filter (fun ip => !(processIp dryRun uk ip (env ip)).1) ∧
    ((run ips dryRun uk mongo env).exitCode = 0 ∨
      (run ips dryRun uk mongo env).exitCode = 1) ∧
    (∀ e env2, (run ips false uk (Except.error e) env2).processed = [] ∧
      (run ips false uk (Except.error e) env2).exitCode = 2) := by
  rw [run_ok_eq ips dryRun uk mongo env h]
  obtain ⟨-, h2, h3⟩ := runLoop_parts dryRun uk env ips
  refine ⟨h2, h3, ?_, ?_⟩
  · dsimp only
    split
    · exact Or.inl rfl
    · exact Or.inr rfl
  · intro e env2
    exact ⟨rfl, rfl⟩

/-- Witness for `per_address_failure_isolation`: dry-run on two addresses
where the first fetch succeeds with payload `{}` and the second raises. -/
theorem per_address_failure_isolation_witness :
    (run ["8.8.8.8", "1.1.1.1"] true (some "indicator") (Except.ok ())
        (fun ip => if ip = "8.8.8.8" then ⟨Except.ok [], "t", Option.none⟩
          else ⟨Except.error "boom", "t", Option.none⟩)).processed =
        ["8.8.8.8", "1.1.1.1"] ∧
    (run ["8.8.8.8", "1.1.1.1"] true (some "indicator") (Except.ok ())
        (fun ip => if ip = "8.8.8.8" then ⟨Except.ok [], "t", Option.none⟩
          else ⟨Except.error "boom", "t", Option.none⟩)).failures =
        ["1.1.1.1"] ∧
    (run ["8.8.8.8", "1.1.1.1"] true (some "indicator") (Except.ok ())
        (fun ip => if ip = "8.8.8.8" then ⟨Except.ok [], "t", Option.none⟩
          else ⟨Except.error "boom", "t", Option.none⟩)).exitCode = 1 := by
  have h := per_address_failure_isolation ["8.8.8.8", "1.1.1.1"] true
    (some "indicator") (Except.ok ())
    (fun ip => if ip = "8.8.8.8" then ⟨Except.ok [], "t", Option.none⟩
      else ⟨Except.error "boom", "t", Option.none⟩) (Or.inl rfl)
  obtain ⟨h1, h2, h3, -⟩ := h
  refine ⟨h1, ?_, ?_⟩
  · rw [h2]; rfl
  · rcases h3 with h0 | h1'
    · exact absurd h0 (by decide)
    · exact h1'

/-- C9: in dry-run mode no store connection is attempted and no write is
issued; the loop prints, for each address whose fetch succeeded, its
transformed Record, and every printed Record carries exactly the keys
`ip`, `source`, `endpoint`, `fetched_at`, `raw`, `indicator`,
`alexa_rank`, `pulse_count`. -/
theorem dry_run_frame (ips : List String) (uk : Option String)
    (mongo : Except String Unit) (env : String → IpEnv) :
    (run ips true uk mongo env).mongoConnAttempted = false ∧
    (run ips true uk mongo env).writes = [] ∧
    (run ips true uk mongo env).printed =
      ips.filterMap (fun ip =>
        match (env ip).fetch with
        | .ok p => some (transform ip (env ip).now p)
        | .error _ => Option.none) ∧
    ∀ doc ∈ (run ips true uk mongo env).printed,
      doc.map Prod.fst = ["ip", "source", "endpoint", "fetched_at", "raw",
        "indicator", "alexa_rank", "pulse_count"] := by
  rw [run_ok_eq ips true uk mongo env (Or.inr rfl)]
  obtain ⟨h1, h2⟩ := runLoop_dry_parts uk env ips
  refine ⟨rfl, h2, h1, ?_⟩
  dsimp only
  intro doc hdoc
  rw [h1] at hdoc
  obtain ⟨ip, -, heq⟩ := List.mem_filterMap.mp hdoc
  cases hf : (env ip).fetch with
  | ok p =>
    rw [hf] at heq
    injection heq with heq'
    rw [← heq']
    exact transform_keys ip (env ip).now p
  | error e =>
    rw [hf] at heq
    cases heq

/-- C10 counterexample: `run` called directly with the empty Address List
but an unreachable store (outside dry-run) returns exit status 2, not 0:
the claim's unconditional "returns exit status 0" fails. -/
theorem run_empty_store_down_cex :
    (run [] false (some "indicator") (Except.error "unreachable")
        (fun _ => ⟨Except.error "x", "t", Option.none⟩)).exitCode = 2 ∧
    (2 : Nat) ≠ 0 := by
  exact ⟨rfl, by decide⟩

/-- C10 (amended): when `run` is called directly with an empty Address
List **and the startup store-connectivity check passes (or dry-run skips
it)**, it performs no per-address processing and returns exit status 0
(vacuous all-succeeded); the usage-error exit status 1 for no addresses
is produced only by the entry point `main`, which returns 1 whenever the
collector yields an empty list, whatever the store or the network would
do. -/
theorem run_empty_list_behavior (dryRun : Bool) (uk : Option String)
    (mongo : Except String Unit) (env : String → IpEnv)
    (h : mongo = Except.ok () ∨ dryRun = true) :
    (run [] dryRun uk mongo env).exitCode = 0 ∧
    (run [] dryRun uk mongo env).processed = [] ∧
    (∀ a f ukStr mongo2 env2, iter_ips_from_args a f = [] →
      main a f dryRun ukStr mongo2 env2 = 1) := by
  rw [run_ok_eq [] dryRun uk mongo env h]
  refine ⟨rfl, rfl, ?_⟩
  intro a f ukStr mongo2 env2 hemp
  simp [main, hemp]

/-- Witness for `run_empty_list_behavior`: dry-run with a trivial
environment. -/
theorem run_empty_list_behavior_witness :
    (run [] true (some "indicator") (Except.ok ())
        (fun _ => ⟨Except.error "x", "t", Option.none⟩)).exitCode = 0 ∧
    (run [] true (some "indicator") (Except.ok ())
        (fun _ => ⟨Except.error "x", "t", Option.none⟩)).processed = [] ∧
    (∀ a f ukStr mongo2 env2, iter_ips_from_args a f = [] →
      main a f true ukStr mongo2 env2 = 1) :=
  run_empty_list_behavior true (some "indicator") (Except.ok ())
    (fun _ => ⟨Except.error "x", "t", Option.none⟩) (Or.inr rfl)

/-- Witness for `fetch_fallthrough_iff`: one attempt, backoff 0, an
endpoint that always answers HTTP 429. -/
theorem fetch_fallthrough_iff_witness :
    (((fetch_otx_general 1 0 (fun _ => AttemptOutcome.rateLimited)).1 =
        FetchResult.internalError ↔
      ((fun _ => AttemptOutcome.rateLimited) 1 = AttemptOutcome.rateLimited ∧
        ∀ i, 1 ≤ i → i < 1 → ∀ p,
          (fun _ => AttemptOutcome.rateLimited) i ≠ AttemptOutcome.ok p)) ∧
    ((∃ p, (fetch_otx_general 1 0 (fun _ => AttemptOutcome.rateLimited)).1 =
        FetchResult.success p) ∨
      (∃ e, (fetch_otx_general 1 0 (fun _ => AttemptOutcome.rateLimited)).1 =
        FetchResult.raised e) ∨
      (fetch_otx_general 1 0 (fun _ => AttemptOutcome.rateLimited)).1 =
        FetchResult.internalError)) :=
  fetch_fallthrough_iff 1 0 (fun _ => AttemptOutcome.rateLimited) (by omega)

end Etl
